import Mathlib

/-
Verification of the instance-lifecycle coordinator in
redislabs/instancemanagers/default.go.

The Go code is embedded shallowly: the external collaborators (the state
persister and the cluster API client) are represented by their observable
behaviour for the single call under study — the result of `Load`, the
outcome of the asynchronous `CreateDatabase` race against the timeout
timer, and the per-UID results of `DeleteDatabase` / `UpdateDatabase` —
and each coordinator operation is a pure function of those behaviours.
The result records the returned error, whether a provisioning request was
issued, and the state passed to `Save` (`none` when `Save` is not called).
-/

set_option autoImplicit false

namespace Redislabs

/-- Modelled from the spec: `cluster.InstanceCredentials` (the `cluster`
package is not part of the examined source). The spec describes it as an
opaque struct including a cluster-assigned unique identifier (`UID`) and
connection secrets; only the `UID` is ever inspected by the coordinator,
so the remaining opaque fields are omitted. -/
structure InstanceCredentials where
  UID : Int
deriving DecidableEq, Repr

/-- Modelled from the spec: `persisters.ServiceInstance` (the `persisters`
package is not part of the examined source): an Instance Record
`{ID: string, Credentials: ...}`. -/
structure ServiceInstance where
  ID : String
  Credentials : InstanceCredentials
deriving DecidableEq, Repr

/-- Modelled from the spec: the Broker State
`{AvailableInstances: ordered sequence of Instance Record}`. -/
structure State where
  AvailableInstances : List ServiceInstance
deriving DecidableEq, Repr

/-- The error values the coordinator can return: the named errors of the
`redislabs` package, `brokerapi.ErrInstanceDoesNotExist`, and arbitrary
pass-through errors from the store or the provisioning client. -/
inductive BrokerErr where
  | ErrFailedToLoadState
  | ErrInstanceExists
  | ErrFailedToSaveState
  | ErrCreateDatabaseTimeoutExpired
  | ErrInstanceDoesNotExist
  | clientErr (msg : String)
deriving DecidableEq, Repr

/-- `var WaitingForDatabaseTimeout = 15 //seconds`. -/
def WaitingForDatabaseTimeout : Nat := 15

/-- Outcome of `apiClient.CreateDatabase(settings)` together with the
subsequent race between the completion channel and the timeout timer:
either the client rejects the request synchronously, or the channel
delivers credentials before the timer fires, or the timer fires first. -/
inductive CreateDBOutcome where
  | rejected (e : BrokerErr)
  | delivered (credentials : InstanceCredentials)
  | timedOut
deriving DecidableEq, Repr

/-- `defaultCreator.createDatabase`: a synchronous rejection is propagated
unchanged; a delivery within the timeout yields the credentials; when the
timer fires first the result is `ErrCreateDatabaseTimeoutExpired`. -/
def createDatabase : CreateDBOutcome → Except BrokerErr InstanceCredentials
  | .rejected e => .error e
  | .delivered credentials => .ok credentials
  | .timedOut => .error .ErrCreateDatabaseTimeoutExpired

/-- Observable result of a `Create` call: the returned error (`none` for
a nil return), whether a provisioning request was issued to the client,
and the state passed to `persister.Save` (`none` when it is not called). -/
structure CreateResult where
  ret : Option BrokerErr
  provisionRequested : Bool
  saved : Option State
deriving DecidableEq, Repr

/-- Observable result of an `Update` or `Destroy` call: the returned error
and the state passed to `persister.Save` (`none` when it is not called). -/
structure OpResult where
  ret : Option BrokerErr
  saved : Option State
deriving DecidableEq, Repr

/-- `defaultCreator.Create`: load the state (`ErrFailedToLoadState` on
failure), scan for an existing record with the requested ID
(`ErrInstanceExists` if found), create the database, append the new record
and save (`ErrFailedToSaveState` when the save fails). `load` is the
result of `persister.Load`, `outcome` the behaviour of the provisioning
client, `saveErr` the error `persister.Save` would return. -/
def Create (instanceID : String) (load : Except BrokerErr State)
    (outcome : CreateDBOutcome) (saveErr : Option BrokerErr) : CreateResult :=
  match load with
  | .error _ => ⟨some .ErrFailedToLoadState, false, none⟩
  | .ok state =>
    if state.AvailableInstances.any (fun s => s.ID == instanceID) then
      ⟨some .ErrInstanceExists, false, none⟩
    else
      match createDatabase outcome with
      | .error e => ⟨some e, true, none⟩
      | .ok credentials =>
        let s : ServiceInstance := ⟨instanceID, credentials⟩
        let newState : State := ⟨state.AvailableInstances ++ [s]⟩
        match saveErr with
        | some _ => ⟨some .ErrFailedToSaveState, true, some newState⟩
        | none => ⟨none, true, some newState⟩

/-- The scan loop of `defaultCreator.Update`: the first record whose ID
matches is forwarded to `updateDatabase` (whose result is returned
verbatim); if none matches the result is
`brokerapi.ErrInstanceDoesNotExist`. -/
def updateLoop (instanceID : String) (updateDB : Int → Option BrokerErr) :
    List ServiceInstance → Option BrokerErr
  | [] => some .ErrInstanceDoesNotExist
  | inst :: rest =>
    if inst.ID == instanceID then updateDB inst.Credentials.UID
    else updateLoop instanceID updateDB rest

/-- `defaultCreator.Update`: load the state (a load failure is returned
verbatim), then scan for the matching record and forward to the client.
`Update` never calls `persister.Save`. -/
def Update (instanceID : String) (load : Except BrokerErr State)
    (updateDB : Int → Option BrokerErr) : OpResult :=
  match load with
  | .error e => ⟨some e, none⟩
  | .ok state => ⟨updateLoop instanceID updateDB state.AvailableInstances, none⟩

/-- The partition loop of `defaultCreator.Destroy`: every record whose ID
matches has its database deleted (a delete failure aborts the whole call
with that error) and is dropped; all others are kept in order. The Bool
is the `removed` flag: whether at least one record matched. -/
def destroyLoop (instanceID : String) (deleteDB : Int → Option BrokerErr) :
    List ServiceInstance → Except BrokerErr (List ServiceInstance × Bool)
  | [] => .ok ([], false)
  | inst :: rest =>
    if inst.ID == instanceID then
      match deleteDB inst.Credentials.UID with
      | some e => .error e
      | none =>
        match destroyLoop instanceID deleteDB rest with
        | .error e => .error e
        | .ok (left, _) => .ok (left, true)
    else
      match destroyLoop instanceID deleteDB rest with
      | .error e => .error e
      | .ok (left, removed) => .ok (inst :: left, removed)

/-- `defaultCreator.Destroy`: load the state (a load failure is returned
verbatim), partition the records deleting each matched record's database,
fail with `brokerapi.ErrInstanceDoesNotExist` when nothing matched, and
otherwise save the remaining records (a save failure is returned
verbatim). -/
def Destroy (instanceID : String) (load : Except BrokerErr State)
    (deleteDB : Int → Option BrokerErr) (saveErr : Option BrokerErr) : OpResult :=
  match load with
  | .error e => ⟨some e, none⟩
  | .ok state =>
    match destroyLoop instanceID deleteDB state.AvailableInstances with
    | .error e => ⟨some e, none⟩
    | .ok (instancesLeft, removed) =>
      if !removed then ⟨some .ErrInstanceDoesNotExist, none⟩
      else
        match saveErr with
        | some e => ⟨some e, some ⟨instancesLeft⟩⟩
        | none => ⟨none, some ⟨instancesLeft⟩⟩

/-- `defaultCreator.InstanceExists`: returns `(false, nil)` without ever
consulting the persister (the argument standing for the store's content is
ignored). -/
def InstanceExists (_instanceID : String)
    (_load : Except BrokerErr State) : Bool × Option BrokerErr :=
  (false, none)

/-- The ID-uniqueness invariant of the Broker State: no two records share
the same ID. -/
def distinctIDs (state : State) : Prop :=
  (state.AvailableInstances.map (fun s => s.ID)).Nodup

instance (state : State) : Decidable (distinctIDs state) := by
  unfold distinctIDs; infer_instance

/-- When no existing record matches, the `any` scan of `Create` is false. -/
theorem any_eq_false_of_no_match (instanceID : String) (l : List ServiceInstance)
    (h : ∀ s ∈ l, s.ID ≠ instanceID) :
    l.any (fun s => s.ID == instanceID) = false := by
  simp only [List.any_eq_false, beq_iff_eq]
  exact h

/-- Under the ID-uniqueness invariant, at most one record matches any given
instance ID. -/
theorem countP_ID_le_one (instanceID : String) (l : List ServiceInstance)
    (h : (l.map (fun s => s.ID)).Nodup) :
    l.countP (fun x => x.ID == instanceID) ≤ 1 := by
  induction l with
  | nil => simp
  | cons x xs ih =>
    rw [List.map_cons, List.nodup_cons] at h
    by_cases hx : (x.ID == instanceID) = true
    · have hxid : x.ID = instanceID := by simpa [beq_iff_eq] using hx
      have hzero : xs.countP (fun y => y.ID == instanceID) = 0 := by
        rw [List.countP_eq_zero]
        intro y hy hyx
        have hyid : y.ID = instanceID := by simpa [beq_iff_eq] using hyx
        refine h.1 ?_
        rw [hxid, ← hyid]
        exact List.mem_map_of_mem (fun s => s.ID) hy
      rw [List.countP_cons_of_pos (p := fun y => y.ID == instanceID) xs hx,
        hzero]
    · rw [List.countP_cons_of_neg (p := fun y => y.ID == instanceID) xs hx]
      exact ih h.2

/-- Claim C1: when the state loads successfully, no existing record has the
requested ID, and the completion channel delivers credentials before the
timeout, `Create` passes to `Save` exactly the loaded state with the single
new record `{ID: instanceID, Credentials: received}` appended at the end
(prior records unchanged, in order), and when the save succeeds it returns
nil. -/
theorem Create_appends_new_record (instanceID : String) (state : State)
    (credentials : InstanceCredentials) (saveErr : Option BrokerErr)
    (h : ∀ s ∈ state.AvailableInstances, s.ID ≠ instanceID) :
    (Create instanceID (.ok state) (.delivered credentials) saveErr).saved
        = some ⟨state.AvailableInstances ++ [⟨instanceID, credentials⟩]⟩
      ∧ (Create instanceID (.ok state) (.delivered credentials) none).ret = none := by
  have hany := any_eq_false_of_no_match instanceID state.AvailableInstances h
  refine ⟨?_, ?_⟩
  · cases saveErr <;> simp [Create, createDatabase, hany]
  · simp [Create, createDatabase, hany]

/-- Witness for C1, the spec's scenario: from an empty Broker State,
`Create "x"` with delivered credentials `{UID:7}` and a succeeding save
persists `[{ID:"x", Credentials:{UID:7}}]` and returns nil. -/
theorem Create_appends_new_record_witness :
    (∀ s ∈ (⟨[]⟩ : State).AvailableInstances, s.ID ≠ "x")
      ∧ (Create "x" (.ok ⟨[]⟩) (.delivered ⟨7⟩) none).saved
          = some ⟨[⟨"x", ⟨7⟩⟩]⟩
      ∧ (Create "x" (.ok ⟨[]⟩) (.delivered ⟨7⟩) none).ret = none := by
  have h : ∀ s ∈ (⟨[]⟩ : State).AvailableInstances, s.ID ≠ "x" := by
    intro s hs; cases hs
  have := Create_appends_new_record "x" ⟨[]⟩ ⟨7⟩ none h
  exact ⟨h, this.1, this.2⟩

/-- Claim C2: when the state loads successfully and some record already has
the requested ID, `Create` returns `ErrInstanceExists`, issues no
provisioning request, and never calls `Save` — whatever the provisioning
client and the save would have done. -/
theorem Create_rejects_duplicate (instanceID : String) (state : State)
    (outcome : CreateDBOutcome) (saveErr : Option BrokerErr)
    (r : ServiceInstance) (hr : r ∈ state.AvailableInstances)
    (hid : r.ID = instanceID) :
    Create instanceID (.ok state) outcome saveErr
      = ⟨some .ErrInstanceExists, false, none⟩
      ∧ (distinctIDs state →
          state.AvailableInstances.countP (fun x => x.ID == instanceID)
            = 1) := by
  have hany : state.AvailableInstances.any (fun s => s.ID == instanceID) = true := by
    simp only [List.any_eq_true, beq_iff_eq]
    exact ⟨r, hr, hid⟩
  refine ⟨by simp [Create, hany], fun hd => ?_⟩
  have hpos : 0 < state.AvailableInstances.countP
      (fun x => x.ID == instanceID) :=
    List.countP_pos_iff.mpr ⟨r, hr, by simp [beq_iff_eq, hid]⟩
  have hle := countP_ID_le_one instanceID state.AvailableInstances hd
  omega

/-- Witness for C2: creating `"a"` over a state already holding a record
with ID `"a"` fails with `ErrInstanceExists`, with no provisioning request
and no save, and the untouched state holds exactly one record with that
ID. -/
theorem Create_rejects_duplicate_witness :
    (⟨"a", ⟨1⟩⟩ : ServiceInstance) ∈ (⟨[⟨"a", ⟨1⟩⟩]⟩ : State).AvailableInstances
      ∧ ("a" : String) = "a"
      ∧ Create "a" (.ok ⟨[⟨"a", ⟨1⟩⟩]⟩) (.delivered ⟨2⟩) none
          = ⟨some .ErrInstanceExists, false, none⟩
      ∧ (⟨[⟨"a", ⟨1⟩⟩]⟩ : State).AvailableInstances.countP
          (fun x => x.ID == "a") = 1 := by
  have h := Create_rejects_duplicate "a" ⟨[⟨"a", ⟨1⟩⟩]⟩ (.delivered ⟨2⟩) none
    ⟨"a", ⟨1⟩⟩ (List.mem_singleton.mpr rfl) rfl
  exact ⟨List.mem_singleton.mpr rfl, rfl, h.1, h.2 (by decide)⟩

/-- Claim C3: the configured timeout is 15 seconds by default, and when the
provisioning client accepts the request but the completion channel delivers
nothing before the timer fires, `Create` returns
`ErrCreateDatabaseTimeoutExpired` and never calls `Save`. -/
theorem Create_timeout_leaves_state_unchanged (instanceID : String)
    (state : State) (saveErr : Option BrokerErr)
    (h : ∀ s ∈ state.AvailableInstances, s.ID ≠ instanceID) :
    WaitingForDatabaseTimeout = 15
      ∧ Create instanceID (.ok state) .timedOut saveErr
          = ⟨some .ErrCreateDatabaseTimeoutExpired, true, none⟩ := by
  have hany := any_eq_false_of_no_match instanceID state.AvailableInstances h
  exact ⟨rfl, by simp [Create, createDatabase, hany]⟩

/-- Witness for C3: a timed-out `Create "x"` over the empty state returns
`ErrCreateDatabaseTimeoutExpired` with no save. -/
theorem Create_timeout_leaves_state_unchanged_witness :
    (∀ s ∈ (⟨[]⟩ : State).AvailableInstances, s.ID ≠ "x")
      ∧ WaitingForDatabaseTimeout = 15
      ∧ Create "x" (.ok ⟨[]⟩) .timedOut none
          = ⟨some .ErrCreateDatabaseTimeoutExpired, true, none⟩ := by
  have h : ∀ s ∈ (⟨[]⟩ : State).AvailableInstances, s.ID ≠ "x" := by
    intro s hs; cases hs
  have := Create_timeout_leaves_state_unchanged "x" ⟨[]⟩ none h
  exact ⟨h, this.1, this.2⟩

/-- When no record matches, the partition loop of `Destroy` deletes
nothing, keeps every record, and reports `removed = false`. -/
theorem destroyLoop_no_match (instanceID : String)
    (deleteDB : Int → Option BrokerErr) (l : List ServiceInstance)
    (h : ∀ x ∈ l, x.ID ≠ instanceID) :
    destroyLoop instanceID deleteDB l = .ok (l, false) := by
  induction l with
  | nil => rfl
  | cons x xs ih =>
    have hx : (x.ID == instanceID) = false := by
      simp only [beq_eq_false_iff_ne]
      exact h x (List.mem_cons_self x xs)
    have ih' := ih (fun y hy => h y (List.mem_cons_of_mem x hy))
    simp [destroyLoop, hx, ih']

/-- When the first matching record's delete fails, the partition loop of
`Destroy` aborts with that error. -/
theorem destroyLoop_find_fail (instanceID : String)
    (deleteDB : Int → Option BrokerErr) (l : List ServiceInstance)
    (r : ServiceInstance) (e : BrokerErr)
    (hfind : l.find? (fun x => x.ID == instanceID) = some r)
    (hdel : deleteDB r.Credentials.UID = some e) :
    destroyLoop instanceID deleteDB l = .error e := by
  induction l with
  | nil => simp at hfind
  | cons x xs ih =>
    by_cases hx : (x.ID == instanceID) = true
    · rw [List.find?_cons_of_pos (p := fun y => y.ID == instanceID) xs hx]
        at hfind
      cases hfind
      simp [destroyLoop, hx, hdel]
    · have hx' : (x.ID == instanceID) = false := by
        simpa using hx
      rw [List.find?_cons_of_neg (p := fun y => y.ID == instanceID) xs
        (by simp [hx'])] at hfind
      simp [destroyLoop, hx', ih hfind]

/-- When every matching record's delete succeeds, the partition loop keeps
exactly the non-matching records in order and reports whether any record
matched. -/
theorem destroyLoop_all_success (instanceID : String)
    (deleteDB : Int → Option BrokerErr) (l : List ServiceInstance)
    (h : ∀ x ∈ l, x.ID = instanceID → deleteDB x.Credentials.UID = none) :
    destroyLoop instanceID deleteDB l
      = .ok (l.filter (fun x => !(x.ID == instanceID)),
             l.any (fun x => x.ID == instanceID)) := by
  induction l with
  | nil => rfl
  | cons x xs ih =>
    have ih' := ih (fun y hy => h y (List.mem_cons_of_mem x hy))
    by_cases hx : (x.ID == instanceID) = true
    · have hdel : deleteDB x.Credentials.UID = none :=
        h x (List.mem_cons_self x xs) (by simpa [beq_iff_eq] using hx)
      simp [destroyLoop, hx, hdel, ih', List.filter_cons, List.any_cons]
    · have hx' : (x.ID == instanceID) = false := by simpa using hx
      simp [destroyLoop, hx', ih', List.filter_cons, List.any_cons]

/-- The record list the partition loop keeps is a sublist of the input. -/
theorem destroyLoop_sublist (instanceID : String)
    (deleteDB : Int → Option BrokerErr) :
    ∀ (l left : List ServiceInstance) (removed : Bool),
      destroyLoop instanceID deleteDB l = .ok (left, removed) →
      left.Sublist l := by
  intro l
  induction l with
  | nil =>
    intro left removed h
    simp only [destroyLoop, Except.ok.injEq, Prod.mk.injEq] at h
    rw [h.1]
  | cons x xs ih =>
    intro left removed h
    by_cases hx : (x.ID == instanceID) = true
    · simp only [destroyLoop, hx, if_true] at h
      cases hdel : deleteDB x.Credentials.UID with
      | some e => simp [hdel] at h
      | none =>
        rw [hdel] at h
        cases hres : destroyLoop instanceID deleteDB xs with
        | error e => simp [hres] at h
        | ok p =>
          obtain ⟨l', b⟩ := p
          rw [hres] at h
          simp only [Except.ok.injEq, Prod.mk.injEq] at h
          rw [← h.1]
          exact (ih l' b hres).cons x
    · have hx' : (x.ID == instanceID) = false := by simpa using hx
      simp only [destroyLoop, hx', Bool.false_eq_true, if_false] at h
      cases hres : destroyLoop instanceID deleteDB xs with
      | error e => simp [hres] at h
      | ok p =>
        obtain ⟨l', b⟩ := p
        rw [hres] at h
        simp only [Except.ok.injEq, Prod.mk.injEq] at h
        rw [← h.1]
        exact (ih l' b hres).cons₂ x

/-- The partition loop reports `removed = true` only when some record
matches. -/
theorem destroyLoop_removed_exists (instanceID : String)
    (deleteDB : Int → Option BrokerErr) (l left : List ServiceInstance)
    (h : destroyLoop instanceID deleteDB l = .ok (left, true)) :
    ∃ x ∈ l, x.ID = instanceID := by
  by_contra hno
  push_neg at hno
  rw [destroyLoop_no_match instanceID deleteDB l hno] at h
  simp at h

/-- Claim C4: when the state loads successfully, a record matches, and the
client's delete for that record's UID fails, `Destroy` returns that client
error and never calls `Save`. -/
theorem Destroy_delete_failure_preserves_state (instanceID : String)
    (state : State) (deleteDB : Int → Option BrokerErr)
    (saveErr : Option BrokerErr) (r : ServiceInstance) (e : BrokerErr)
    (hfind : state.AvailableInstances.find? (fun x => x.ID == instanceID)
        = some r)
    (hdel : deleteDB r.Credentials.UID = some e) :
    Destroy instanceID (.ok state) deleteDB saveErr = ⟨some e, none⟩ := by
  have hloop := destroyLoop_find_fail instanceID deleteDB
    state.AvailableInstances r e hfind hdel
  simp [Destroy, hloop]

/-- Witness for C4: destroying `"a"` over `[{ID:"a", UID:1}]` with a
failing `DeleteDatabase(1)` returns the client error and saves nothing. -/
theorem Destroy_delete_failure_preserves_state_witness :
    ((⟨[⟨"a", ⟨1⟩⟩]⟩ : State).AvailableInstances.find?
        (fun x => x.ID == "a") = some ⟨"a", ⟨1⟩⟩)
      ∧ ((fun _ => some (BrokerErr.clientErr "boom")) (1 : Int)
          = some (BrokerErr.clientErr "boom"))
      ∧ Destroy "a" (.ok ⟨[⟨"a", ⟨1⟩⟩]⟩)
          (fun _ => some (BrokerErr.clientErr "boom")) none
          = ⟨some (BrokerErr.clientErr "boom"), none⟩ := by
  refine ⟨by decide, rfl, ?_⟩
  exact Destroy_delete_failure_preserves_state "a" ⟨[⟨"a", ⟨1⟩⟩]⟩
    (fun _ => some (BrokerErr.clientErr "boom")) none ⟨"a", ⟨1⟩⟩
    (BrokerErr.clientErr "boom") (by decide) rfl

/-- Claim C5: when the state loads successfully, some record matches, and
the deletes and the save succeed, `Destroy` persists exactly the loaded
sequence with the matching records excluded and the others in their
original order, and returns nil. -/
theorem Destroy_persists_filtered_state (instanceID : String) (state : State)
    (deleteDB : Int → Option BrokerErr)
    (hmatch : ∃ r ∈ state.AvailableInstances, r.ID = instanceID)
    (hdel : ∀ r ∈ state.AvailableInstances, r.ID = instanceID →
        deleteDB r.Credentials.UID = none) :
    Destroy instanceID (.ok state) deleteDB none
      = ⟨none, some ⟨state.AvailableInstances.filter
          (fun x => !(x.ID == instanceID))⟩⟩ := by
  have hloop := destroyLoop_all_success instanceID deleteDB
    state.AvailableInstances hdel
  have hany : state.AvailableInstances.any (fun x => x.ID == instanceID)
      = true := by
    simp only [List.any_eq_true, beq_iff_eq]
    exact hmatch
  simp [Destroy, hloop, hany]

/-- Witness for C5, the spec's scenario: from `[{ID:"a", UID:1}]` with
`DeleteDatabase(1)` succeeding, `Destroy "a"` persists the empty Broker
State and returns nil. -/
theorem Destroy_persists_filtered_state_witness :
    (∃ r ∈ (⟨[⟨"a", ⟨1⟩⟩]⟩ : State).AvailableInstances, r.ID = "a")
      ∧ Destroy "a" (.ok ⟨[⟨"a", ⟨1⟩⟩]⟩) (fun _ => none) none
          = ⟨none, some ⟨[]⟩⟩ := by
  have hmatch : ∃ r ∈ (⟨[⟨"a", ⟨1⟩⟩]⟩ : State).AvailableInstances,
      r.ID = "a" := ⟨⟨"a", ⟨1⟩⟩, List.mem_singleton.mpr rfl, rfl⟩
  have h := Destroy_persists_filtered_state "a" ⟨[⟨"a", ⟨1⟩⟩]⟩
    (fun _ => none) hmatch (fun r _ _ => rfl)
  refine ⟨hmatch, ?_⟩
  rw [h]
  decide

/-- A `Destroy` over a successfully loaded state returns nil only if its
partition loop reported a match. -/
theorem Destroy_ret_none_has_match (instanceID : String) (state : State)
    (deleteDB : Int → Option BrokerErr) (saveErr : Option BrokerErr)
    (h : (Destroy instanceID (.ok state) deleteDB saveErr).ret = none) :
    ∃ r ∈ state.AvailableInstances, r.ID = instanceID := by
  cases hres : destroyLoop instanceID deleteDB state.AvailableInstances with
  | error e => simp [Destroy, hres] at h
  | ok p =>
    obtain ⟨left, removed⟩ := p
    cases removed with
    | false => simp [Destroy, hres] at h
    | true => exact destroyLoop_removed_exists instanceID deleteDB _ left hres

/-- Counterexample to C6 as stated: on a (invariant-violating) state with
two records sharing ID `"a"`, `Destroy "a"` succeeds even though two
records — not exactly one — matched. -/
theorem Destroy_two_matches_succeeds :
    (Destroy "a" (.ok ⟨[⟨"a", ⟨1⟩⟩, ⟨"a", ⟨2⟩⟩]⟩) (fun _ => none) none).ret
        = none
      ∧ (⟨[⟨"a", ⟨1⟩⟩, ⟨"a", ⟨2⟩⟩]⟩ : State).AvailableInstances.countP
          (fun x => x.ID == "a") = 2 := by
  decide

/-- Claim C6 (amended): when the state loads successfully and zero records
match, `Destroy` returns the instance-does-not-exist error without calling
`Save`; `Destroy` succeeds only when at least one record matched, and under
the ID-uniqueness invariant that match is exactly one record. -/
theorem Destroy_requires_a_match (instanceID : String) (state : State)
    (deleteDB : Int → Option BrokerErr) (saveErr : Option BrokerErr) :
    ((∀ r ∈ state.AvailableInstances, r.ID ≠ instanceID) →
        Destroy instanceID (.ok state) deleteDB saveErr
          = ⟨some .ErrInstanceDoesNotExist, none⟩)
      ∧ ((Destroy instanceID (.ok state) deleteDB saveErr).ret = none →
          ∃ r ∈ state.AvailableInstances, r.ID = instanceID)
      ∧ (distinctIDs state →
          (Destroy instanceID (.ok state) deleteDB saveErr).ret = none →
          state.AvailableInstances.countP (fun x => x.ID == instanceID)
            = 1) := by
  refine ⟨?_, Destroy_ret_none_has_match instanceID state deleteDB saveErr,
    ?_⟩
  · intro h
    simp [Destroy, destroyLoop_no_match instanceID deleteDB _ h]
  · intro hd h
    obtain ⟨r, hr, hid⟩ :=
      Destroy_ret_none_has_match instanceID state deleteDB saveErr h
    have hpos : 0 < state.AvailableInstances.countP
        (fun x => x.ID == instanceID) :=
      List.countP_pos_iff.mpr ⟨r, hr, by simp [beq_iff_eq, hid]⟩
    have hle := countP_ID_le_one instanceID state.AvailableInstances hd
    omega

/-- Witness for C6 (amended): destroying `"a"` over the empty state yields
the instance-does-not-exist error with no save. -/
theorem Destroy_requires_a_match_witness :
    (∀ r ∈ (⟨[]⟩ : State).AvailableInstances, r.ID ≠ "a")
      ∧ Destroy "a" (.ok ⟨[]⟩) (fun _ => none) none
          = ⟨some .ErrInstanceDoesNotExist, none⟩ := by
  have h : ∀ r ∈ (⟨[]⟩ : State).AvailableInstances, r.ID ≠ "a" := by
    intro r hr
    cases hr
  exact ⟨h, (Destroy_requires_a_match "a" ⟨[]⟩ (fun _ => none) none).1 h⟩

/-- Claim C7: ID uniqueness is preserved — starting from a loaded state
with pairwise-distinct record IDs, every state that `Create` or `Destroy`
passes to `Save` again has pairwise-distinct IDs, and `Update` never passes
a state to `Save` at all. -/
theorem lifecycle_preserves_distinct_IDs (instanceID : String) (state : State)
    (outcome : CreateDBOutcome) (saveErr : Option BrokerErr)
    (deleteDB : Int → Option BrokerErr) (updateDB : Int → Option BrokerErr)
    (hdistinct : distinctIDs state) :
    (∀ st, (Create instanceID (.ok state) outcome saveErr).saved = some st →
        distinctIDs st)
      ∧ (∀ st, (Destroy instanceID (.ok state) deleteDB saveErr).saved
          = some st → distinctIDs st)
      ∧ (Update instanceID (.ok state) updateDB).saved = none := by
  refine ⟨?_, ?_, rfl⟩
  · intro st hst
    by_cases hany : state.AvailableInstances.any
        (fun s => s.ID == instanceID) = true
    · simp [Create, hany] at hst
    · have hany' : state.AvailableInstances.any
          (fun s => s.ID == instanceID) = false := by
        simpa using hany
      cases outcome with
      | rejected e => simp [Create, createDatabase, hany'] at hst
      | timedOut => simp [Create, createDatabase, hany'] at hst
      | delivered credentials =>
        have hst' : st
            = ⟨state.AvailableInstances ++ [⟨instanceID, credentials⟩]⟩ := by
          cases saveErr <;>
            · simp only [Create, createDatabase, hany', Bool.false_eq_true,
                if_false, Option.some.injEq] at hst
              exact hst.symm
        have hnotin : instanceID
            ∉ state.AvailableInstances.map (fun s => s.ID) := by
          simp only [List.any_eq_false] at hany'
          intro hmem
          obtain ⟨r, hr, hid⟩ := List.mem_map.mp hmem
          exact hany' r hr (by simp [hid])
        rw [hst']
        show (List.map (fun s => s.ID)
          (state.AvailableInstances ++ [⟨instanceID, credentials⟩])).Nodup
        rw [List.map_append]
        simp only [List.map_cons, List.map_nil]
        rw [List.nodup_middle, List.nodup_cons]
        constructor
        · simpa using hnotin
        · simpa using hdistinct
  · intro st hst
    cases hres : destroyLoop instanceID deleteDB state.AvailableInstances with
    | error e => simp [Destroy, hres] at hst
    | ok p =>
      obtain ⟨left, removed⟩ := p
      cases removed with
      | false => simp [Destroy, hres] at hst
      | true =>
        have hsub := destroyLoop_sublist instanceID deleteDB
          state.AvailableInstances left true hres
        have hst' : st = ⟨left⟩ := by
          cases saveErr <;>
            · simp only [Destroy, hres, Bool.not_true, Bool.false_eq_true,
                if_false, Option.some.injEq] at hst
              exact hst.symm
        rw [hst']
        show (List.map (fun s => s.ID) left).Nodup
        exact List.Nodup.sublist (hsub.map (fun s => s.ID)) hdistinct

/-- Witness for C7: the singleton state `[{ID:"a"}]` has distinct IDs, and
so does the state a successful `Create "x"` over it passes to `Save`. -/
theorem lifecycle_preserves_distinct_IDs_witness :
    distinctIDs ⟨[⟨"a", ⟨1⟩⟩]⟩
      ∧ distinctIDs ⟨[⟨"a", ⟨1⟩⟩, ⟨"x", ⟨7⟩⟩]⟩ := by
  have hd : distinctIDs (⟨[⟨"a", ⟨1⟩⟩]⟩ : State) := by decide
  have h := lifecycle_preserves_distinct_IDs "x" ⟨[⟨"a", ⟨1⟩⟩]⟩
    (.delivered ⟨7⟩) none (fun _ => none) (fun _ => none) hd
  exact ⟨hd, h.1 ⟨[⟨"a", ⟨1⟩⟩, ⟨"x", ⟨7⟩⟩]⟩ (by decide)⟩

/-- Claim C9: `InstanceExists` returns `(false, nil)` for every instance ID
and every store content, never consulting the store. -/
theorem InstanceExists_always_false (instanceID : String)
    (load : Except BrokerErr State) :
    InstanceExists instanceID load = (false, none) := rfl

/-- The scan loop of `Update` fails with the instance-does-not-exist error
when no record matches. -/
theorem updateLoop_no_match (instanceID : String)
    (updateDB : Int → Option BrokerErr) (l : List ServiceInstance)
    (h : ∀ x ∈ l, x.ID ≠ instanceID) :
    updateLoop instanceID updateDB l = some .ErrInstanceDoesNotExist := by
  induction l with
  | nil => rfl
  | cons x xs ih =>
    have hx : (x.ID == instanceID) = false := by
      simp only [beq_eq_false_iff_ne]
      exact h x (List.mem_cons_self x xs)
    simp [updateLoop, hx, ih (fun y hy => h y (List.mem_cons_of_mem x hy))]

/-- The scan loop of `Update` forwards the first matching record's UID to
the client and returns the client's result verbatim. -/
theorem updateLoop_find (instanceID : String)
    (updateDB : Int → Option BrokerErr) (l : List ServiceInstance)
    (r : ServiceInstance)
    (hfind : l.find? (fun x => x.ID == instanceID) = some r) :
    updateLoop instanceID updateDB l = updateDB r.Credentials.UID := by
  induction l with
  | nil => simp at hfind
  | cons x xs ih =>
    by_cases hx : (x.ID == instanceID) = true
    · rw [List.find?_cons_of_pos (p := fun y => y.ID == instanceID) xs hx]
        at hfind
      cases hfind
      simp [updateLoop, hx]
    · have hx' : (x.ID == instanceID) = false := by simpa using hx
      rw [List.find?_cons_of_neg (p := fun y => y.ID == instanceID) xs
        (by simp [hx'])] at hfind
      simp [updateLoop, hx', ih hfind]

/-- Claim C10: `Update` never calls `Save` under any outcome; when the
state loads and no record matches it returns the instance-does-not-exist
error, and when a record matches it returns exactly the client's result
for that record's UID. -/
theorem Update_never_saves (instanceID : String)
    (load : Except BrokerErr State) (updateDB : Int → Option BrokerErr) :
    (Update instanceID load updateDB).saved = none
      ∧ ∀ state, load = .ok state →
          ((∀ r ∈ state.AvailableInstances, r.ID ≠ instanceID) →
              (Update instanceID load updateDB).ret
                = some .ErrInstanceDoesNotExist)
            ∧ ∀ r, state.AvailableInstances.find?
                  (fun x => x.ID == instanceID) = some r →
                (Update instanceID load updateDB).ret
                  = updateDB r.Credentials.UID := by
  refine ⟨by cases load <;> rfl, ?_⟩
  intro state hload
  subst hload
  refine ⟨?_, ?_⟩
  · intro h
    simp [Update, updateLoop_no_match instanceID updateDB _ h]
  · intro r hfind
    simp [Update, updateLoop_find instanceID updateDB _ r hfind]

/-- Witness for C10: over `[{ID:"a", UID:1}]`, an `Update "a"` whose client
fails returns exactly that client error and saves nothing. -/
theorem Update_never_saves_witness :
    ((Except.ok (⟨[⟨"a", ⟨1⟩⟩]⟩ : State) : Except BrokerErr State)
        = .ok ⟨[⟨"a", ⟨1⟩⟩]⟩)
      ∧ (Update "a" (.ok ⟨[⟨"a", ⟨1⟩⟩]⟩)
          (fun _ => some (.clientErr "down"))).saved = none
      ∧ (Update "a" (.ok ⟨[⟨"a", ⟨1⟩⟩]⟩)
          (fun _ => some (.clientErr "down"))).ret
          = some (.clientErr "down") := by
  have h := Update_never_saves "a" (.ok ⟨[⟨"a", ⟨1⟩⟩]⟩)
    (fun _ => some (.clientErr "down"))
  exact ⟨rfl, h.1, (h.2 ⟨[⟨"a", ⟨1⟩⟩]⟩ rfl).2 ⟨"a", ⟨1⟩⟩ (by decide)⟩

end Redislabs
